import Mathlib

/-!
Verification of the versioned persistent store primitive and the energy
websocket handler.

The store implementation (`homeassistant/helpers/storage.py`) is not part of
this source slice; only its test suite is.  Its data model and operations are
therefore modelled from the specification (sections 3, 4, 5 and 7 of the
design document), as a pure state machine driven by events.  The energy
websocket handler `ws_get_fossil_energy_consumption` is embedded directly
from `homeassistant/components/energy/websocket_api.py`.
-/

/-- Modelled from the spec: the persisted Envelope unit
`\x7bkey, major_version, minor_version, data\x7d` (spec section 3 and the
external-interface schema of section 6, where the major version is stored
under the field name `version`). -/
structure Envelope (α : Type) where
  key : String
  version : Nat
  minor_version : Nat
  data : α
deriving DecidableEq

/-- Modelled from the spec: the state owned by one Store instance, missing
from the source slice.  `cache` is the in-memory data, `pending` is the at
most one PendingWrite slot (timer id paired with the lazily produced data of
the most recently supplied factory), `nextTimer` generates fresh timer ids,
`disk` is the persisted resource for this store key, `stopping` records
whether the lifecycle phase has become `stopping`, `writeLog` records every
physical write in order, and `loadCount` / `logCount` count physical reads
and load log events. -/
structure StoreState (α : Type) where
  key : String
  version : Nat
  minor_version : Nat
  cache : Option α
  pending : Option (Nat × α)
  nextTimer : Nat
  disk : Option (Envelope α)
  stopping : Bool
  writeLog : List α
  loadCount : Nat
  logCount : Nat
deriving DecidableEq

/-- Modelled from the spec: the events that drive one Store instance — the
public operations `save` and `delay_save`, the debounce timer reaching its
due time, and the host lifecycle notifications `stop` and `final_write`
(spec sections 4.1 and 4.2). -/
inductive Event (α : Type) where
  | save (d : α)
  | delaySave (d : α) (delay : Nat)
  | timer (id : Nat)
  | stop
  | finalWrite
deriving DecidableEq

/-- Modelled from the spec: one physical write — persist the data tagged
with the store declared (major, minor) version and update the in-memory
cache (spec section 4.1, `save`). -/
def writeData {α : Type} (st : StoreState α) (d : α) : StoreState α :=
  { st with
    disk := some ⟨st.key, st.version, st.minor_version, d⟩
    cache := some d
    writeLog := st.writeLog ++ [d] }

/-- Modelled from the spec: the transition function of one Store instance,
missing from the source slice (spec sections 4.1 and 4.2).
`save` cancels any pending deferred write and persists immediately, and is a
silent no-op while the phase is `stopping`.  `delay_save` replaces any
pending deferred write with a fresh timer.  A timer firing has an effect only
when it is the currently armed timer and the phase is not `stopping`.
`stop` records the phase transition.  `final_write` flushes whatever deferred
write is still pending, exactly once. -/
def step {α : Type} (st : StoreState α) : Event α → StoreState α
  | .save d => if st.stopping then st else { writeData st d with pending := none }
  | .delaySave d _delay =>
      { st with pending := some (st.nextTimer, d), nextTimer := st.nextTimer + 1 }
  | .timer id =>
      if st.stopping then st
      else
        match st.pending with
        | some (tid, d) => if tid = id then { writeData st d with pending := none } else st
        | none => st
  | .stop => { st with stopping := true }
  | .finalWrite =>
      match st.pending with
      | some (_, d) => { writeData st d with pending := none }
      | none => st

/-- Running a list of events through the store transition function. -/
def run {α : Type} (evs : List (Event α)) (st : StoreState α) : StoreState α :=
  evs.foldl step st

theorem run_nil {α : Type} (st : StoreState α) : run ([] : List (Event α)) st = st := rfl

theorem run_cons {α : Type} (e : Event α) (evs : List (Event α)) (st : StoreState α) :
    run (e :: evs) st = run evs (step st e) := rfl

theorem run_append {α : Type} (a b : List (Event α)) (st : StoreState α) :
    run (a ++ b) st = run b (run a st) := by
  simp [run, List.foldl_append]

theorem step_timer_stopping {α : Type} (st : StoreState α) (h : st.stopping = true)
    (j : Nat) : step st (Event.timer j) = st := by
  simp [step, h]

theorem step_timer_pending_none {α : Type} (st : StoreState α) (h : st.pending = none)
    (j : Nat) : step st (Event.timer j) = st := by
  simp [step, h]

theorem run_timers_stopping {α : Type} (st : StoreState α) (h : st.stopping = true)
    (js : List Nat) : run (js.map Event.timer) st = st := by
  induction js with
  | nil => rfl
  | cons j js ih =>
      rw [List.map_cons, run_cons, step_timer_stopping st h j, ih]

theorem run_timers_pending_none {α : Type} (st : StoreState α) (h : st.pending = none)
    (js : List Nat) : run (js.map Event.timer) st = st := by
  induction js with
  | nil => rfl
  | cons j js ih =>
      rw [List.map_cons, run_cons, step_timer_pending_none st h j, ih]

theorem step_nonfinal_stopping {α : Type} (st : StoreState α) (h : st.stopping = true)
    (e : Event α) (hne : e ≠ Event.finalWrite) :
    (step st e).writeLog = st.writeLog ∧ (step st e).stopping = true := by
  cases e with
  | save d => simp [step, h]
  | delaySave d t => simp [step, h]
  | timer j => simp [step, h]
  | stop => simp [step, h]
  | finalWrite => exact absurd rfl hne

theorem run_nonfinal_stopping {α : Type} (evs : List (Event α)) (st : StoreState α)
    (h : st.stopping = true) (hne : ∀ e ∈ evs, e ≠ Event.finalWrite) :
    (run evs st).writeLog = st.writeLog ∧ (run evs st).stopping = true := by
  induction evs generalizing st with
  | nil => exact ⟨rfl, h⟩
  | cons e evs ih =>
      have he := step_nonfinal_stopping st h e (hne e (List.mem_cons_self e evs))
      have := ih (step st e) he.2 (fun x hx => hne x (List.mem_cons_of_mem e hx))
      rw [run_cons]
      exact ⟨this.1.trans he.1, this.2⟩

/-- The fatal condition raised when a major version mismatch has no
migration override (spec sections 4.3 and 7). -/
inductive StorageError where
  | schemaVersionUnsupported
deriving DecidableEq

/-- Modelled from the spec: the store migration hook, missing from the
source slice.  It is either not implemented, implemented with the canonical
3-argument signature `(old_major, old_minor, old_data)`, or implemented with
the legacy 2-argument signature `(old_version, old_data)` (spec section
4.3). -/
inductive MigrateHook (α : Type) where
  | unimplemented
  | modern (f : Nat → Nat → α → α)
  | legacy (f : Nat → α → α)

/-- Modelled from the spec: the MigrationEngine dispatch, missing from the
source slice (spec section 4.3).  Given the persisted envelope and the store
declared target `(major, minor)`: equal versions pass the data through; a
minor-only mismatch invokes the hook, or passes through when the hook is
unimplemented; a major mismatch invokes the hook, or fails with
SchemaVersionUnsupported when the hook is unimplemented.  The second
component counts hook invocations. -/
def runMigration {α : Type} (hook : MigrateHook α) (major minor : Nat)
    (env : Envelope α) : Except StorageError α × Nat :=
  if env.version = major ∧ env.minor_version = minor then (.ok env.data, 0)
  else
    match hook with
    | .unimplemented =>
        if env.version = major then (.ok env.data, 0)
        else (.error .schemaVersionUnsupported, 0)
    | .modern f => (.ok (f env.version env.minor_version env.data), 1)
    | .legacy f => (.ok (f env.version env.data), 1)

/-- Modelled from the spec: a single physical load for one Store, missing
from the source slice (spec sections 4.1 and 4.3).  A present in-memory
cache is returned without I/O.  Otherwise exactly one physical read occurs
(counted, with one log event): a missing resource yields `none` rather than
an error, and a present envelope goes through the MigrationEngine, caching
the migrated value on success.  The last component counts hook
invocations. -/
def loadOnce {α : Type} (hook : MigrateHook α) (st : StoreState α) :
    Except StorageError (Option α) × StoreState α × Nat :=
  match st.cache with
  | some d => (.ok (some d), st, 0)
  | none =>
      let st1 := { st with loadCount := st.loadCount + 1, logCount := st.logCount + 1 }
      match st.disk with
      | none => (.ok none, st1, 0)
      | some env =>
          match runMigration hook st.version st.minor_version env with
          | (.error e, c) => (.error e, st1, c)
          | (.ok d, c) => (.ok (some d), { st1 with cache := some d }, c)

/-- Modelled from the spec: the LoadCoalescer single-flight discipline,
missing from the source slice (spec sections 2, 4.1 and 5).  Callers are
served in their cooperative arrival order: the first caller finds no shared
load task and creates it, performing the physical load; every later caller
arriving before completion joins the same task and receives the identical
result.  Returns the per-caller results in order and the final state. -/
def loadAll {α : Type} (hook : MigrateHook α) :
    Nat → Option (Except StorageError (Option α)) → StoreState α →
    List (Except StorageError (Option α)) × StoreState α
  | 0, _, st => ([], st)
  | Nat.succ n, some r, st =>
      let p := loadAll hook n (some r) st
      (r :: p.1, p.2)
  | Nat.succ n, none, st =>
      let q := loadOnce hook st
      let p := loadAll hook n (some q.1) q.2.1
      (q.1 :: p.1, p.2)

theorem loadAll_joined {α : Type} (hook : MigrateHook α) (n : Nat)
    (r : Except StorageError (Option α)) (st : StoreState α) :
    loadAll hook n (some r) st = (List.replicate n r, st) := by
  induction n with
  | zero => rfl
  | succ n ih => simp [loadAll, ih, List.replicate]

theorem loadOnce_bump {α : Type} (hook : MigrateHook α) (st : StoreState α)
    (h : st.cache = none) :
    (loadOnce hook st).2.1.loadCount = st.loadCount + 1 ∧
    (loadOnce hook st).2.1.logCount = st.logCount + 1 := by
  cases hd : st.disk with
  | none => simp [loadOnce, h, hd]
  | some env =>
      rcases hm : runMigration hook st.version st.minor_version env with ⟨res, c⟩
      cases res with
      | error e => simp [loadOnce, h, hd, hm]
      | ok d => simp [loadOnce, h, hd, hm]

theorem loadOnce_writeLog {α : Type} (hook : MigrateHook α) (st : StoreState α) :
    (loadOnce hook st).2.1.writeLog = st.writeLog := by
  cases hc : st.cache with
  | some d => simp [loadOnce, hc]
  | none =>
      cases hd : st.disk with
      | none => simp [loadOnce, hc, hd]
      | some env =>
          rcases hm : runMigration hook st.version st.minor_version env with ⟨res, c⟩
          cases res with
          | error e => simp [loadOnce, hc, hd, hm]
          | ok d => simp [loadOnce, hc, hd, hm]

/-- Modelled from the spec: the one-shot legacy import helper
`async_migrator` (spec section 4.4), missing from the source slice.
`legacy` is the content read by the load function when the legacy path
references an existing resource, and `none` when it does not; `transform`
is the transform function (identity at call sites that omit it); `hook` is
the store migration hook used by `store.load()`.  When no legacy resource
exists, the helper returns the current value of `store.load()` unchanged,
with no deletion and no store write.  When it exists, the transformed data
is saved into the store, the legacy resource is deleted exactly once, and
the new data is returned.  The last component counts deletions of the
legacy resource. -/
def async_migrator {α : Type} (legacy : Option α) (transform : α → α)
    (hook : MigrateHook α) (st : StoreState α) :
    Except StorageError (Option α) × StoreState α × Nat :=
  match legacy with
  | none => ((loadOnce hook st).1, (loadOnce hook st).2.1, 0)
  | some oldData =>
      let newData := transform oldData
      (.ok (some newData), step st (Event.save newData), 1)

/-- A concrete store state used by the witnesses: fresh store declared at
version (1, 1) under the test key, with empty storage. -/
def sampleState : StoreState Nat :=
  { key := "storage-test", version := 1, minor_version := 1, cache := none,
    pending := none, nextTimer := 0, disk := none, stopping := false,
    writeLog := [], loadCount := 0, logCount := 0 }

/-- A concrete store state used by the witnesses: phase already `stopping`
with a deferred write pending (timer id 0, factory data 42). -/
def stoppingState : StoreState Nat :=
  { sampleState with stopping := true, pending := some (0, 42) }

/-- Claim C1: for every store and every number N of at least 2 `load()`
calls issued concurrently before any physical read completes, all N callers
receive the identical result value, exactly one physical read of the
underlying resource occurs, and exactly one load log event is emitted. -/
theorem loadAll_single_flight (hook : MigrateHook Nat) (n : Nat)
    (st : StoreState Nat) (hn : 2 ≤ n) (hc : st.cache = none) :
    ∃ r, (loadAll hook n none st).1 = List.replicate n r ∧
      (loadAll hook n none st).2.loadCount = st.loadCount + 1 ∧
      (loadAll hook n none st).2.logCount = st.logCount + 1 := by
  obtain ⟨m, rfl⟩ : ∃ m, n = m + 2 := ⟨n - 2, by omega⟩
  have hb := loadOnce_bump hook st hc
  refine ⟨(loadOnce hook st).1, ?_, ?_, ?_⟩
  · show (loadAll hook (m + 1 + 1) none st).1 = _
    simp [loadAll, loadAll_joined, List.replicate]
  · show (loadAll hook (m + 1 + 1) none st).2.loadCount = _
    simp [loadAll, loadAll_joined, hb.1]
  · show (loadAll hook (m + 1 + 1) none st).2.logCount = _
    simp [loadAll, loadAll_joined, hb.2]

theorem loadAll_single_flight_witness :
    2 ≤ 2 ∧ sampleState.cache = none ∧
    ∃ r, (loadAll MigrateHook.unimplemented 2 none sampleState).1
        = List.replicate 2 r ∧
      (loadAll MigrateHook.unimplemented 2 none sampleState).2.loadCount
        = sampleState.loadCount + 1 ∧
      (loadAll MigrateHook.unimplemented 2 none sampleState).2.logCount
        = sampleState.logCount + 1 :=
  ⟨by decide, rfl,
    loadAll_single_flight MigrateHook.unimplemented 2 sampleState (by decide) rfl⟩

/-- Claim C2: for every store with a deferred write pending when the phase
becomes `stopping`: no sequence of events without a `final_write`
notification (in particular no timer firing, even when its delay elapses)
ever writes anything; if a `final_write` notification arrives after any
timer activity, the pending write is flushed exactly once with its stored
(most recently supplied) factory and the pending slot is emptied, and later
timer activity writes nothing more; and a further `delay_save` replaces the
pending slot with the newly supplied factory, so the slot always holds the
most recently supplied one. -/
theorem pending_write_stopping_final_write (st : StoreState Nat) (tid d : Nat)
    (hstop : st.stopping = true) (hpend : st.pending = some (tid, d)) :
    (∀ evs : List (Event Nat), (∀ e ∈ evs, e ≠ Event.finalWrite) →
        (run evs st).writeLog = st.writeLog) ∧
    (∀ js ks : List Nat,
        (run (js.map Event.timer ++ Event.finalWrite :: ks.map Event.timer) st).writeLog
          = st.writeLog ++ [d] ∧
        (run (js.map Event.timer ++ Event.finalWrite :: ks.map Event.timer) st).pending
          = none) ∧
    (∀ d2 t2, (step st (Event.delaySave d2 t2)).pending = some (st.nextTimer, d2)) := by
  refine ⟨fun evs hne => (run_nonfinal_stopping evs st hstop hne).1,
    fun js ks => ?_, fun d2 t2 => rfl⟩
  rw [run_append, run_timers_stopping st hstop js, run_cons]
  have hfw : step st Event.finalWrite = { writeData st d with pending := none } := by
    simp [step, hpend]
  rw [hfw]
  have h2 : ({ writeData st d with pending := none } : StoreState Nat).stopping = true :=
    hstop
  rw [run_timers_stopping _ h2 ks]
  exact ⟨rfl, rfl⟩

theorem pending_write_stopping_final_write_witness :
    stoppingState.stopping = true ∧ stoppingState.pending = some (0, 42) ∧
    ((∀ evs : List (Event Nat), (∀ e ∈ evs, e ≠ Event.finalWrite) →
        (run evs stoppingState).writeLog = stoppingState.writeLog) ∧
      (∀ js ks : List Nat,
        (run (js.map Event.timer ++ Event.finalWrite :: ks.map Event.timer)
            stoppingState).writeLog = stoppingState.writeLog ++ [42] ∧
        (run (js.map Event.timer ++ Event.finalWrite :: ks.map Event.timer)
            stoppingState).pending = none) ∧
      (∀ d2 t2, (step stoppingState (Event.delaySave d2 t2)).pending
          = some (stoppingState.nextTimer, d2))) :=
  ⟨rfl, rfl, pending_write_stopping_final_write stoppingState 0 42 rfl rfl⟩

theorem run_delays_fields {α : Type} (ds : List (α × Nat)) (st : StoreState α) :
    (run (ds.map fun p => Event.delaySave p.1 p.2) st).key = st.key ∧
    (run (ds.map fun p => Event.delaySave p.1 p.2) st).version = st.version ∧
    (run (ds.map fun p => Event.delaySave p.1 p.2) st).minor_version = st.minor_version ∧
    (run (ds.map fun p => Event.delaySave p.1 p.2) st).stopping = st.stopping ∧
    (run (ds.map fun p => Event.delaySave p.1 p.2) st).writeLog = st.writeLog := by
  induction ds generalizing st with
  | nil => exact ⟨rfl, rfl, rfl, rfl, rfl⟩
  | cons p ds ih =>
      rw [List.map_cons, run_cons]
      exact ih (step st (Event.delaySave p.1 p.2))

/-- Claim C3: for every store not yet stopping, after any sequence of
`delay_save` calls followed by an explicit `save(D)`, only `D` is
persisted: the pending slot is empty (every superseded deferred write is
cancelled), the persisted resource is exactly the envelope for `D`, `D` is
the only physical write performed, and no sequence of later timer firings
changes the state at all — no superseded timer ever fires a stale value. -/
theorem explicit_save_supersedes_delay (st : StoreState Nat)
    (hstop : st.stopping = false) (ds : List (Nat × Nat)) (D : Nat) (js : List Nat) :
    (step (run (ds.map fun p => Event.delaySave p.1 p.2) st) (Event.save D)).pending
      = none ∧
    (step (run (ds.map fun p => Event.delaySave p.1 p.2) st) (Event.save D)).disk
      = some ⟨st.key, st.version, st.minor_version, D⟩ ∧
    (step (run (ds.map fun p => Event.delaySave p.1 p.2) st) (Event.save D)).writeLog
      = st.writeLog ++ [D] ∧
    run (js.map Event.timer)
        (step (run (ds.map fun p => Event.delaySave p.1 p.2) st) (Event.save D))
      = step (run (ds.map fun p => Event.delaySave p.1 p.2) st) (Event.save D) := by
  obtain ⟨hk, hv, hm, hs, hw⟩ := run_delays_fields ds st
  have hs1 : (run (ds.map fun p => Event.delaySave p.1 p.2) st).stopping = false :=
    hs.trans hstop
  have hsave : step (run (ds.map fun p => Event.delaySave p.1 p.2) st) (Event.save D)
      = { writeData (run (ds.map fun p => Event.delaySave p.1 p.2) st) D with
          pending := none } := by
    simp [step, hs1]
  refine ⟨by rw [hsave], ?_, ?_, ?_⟩
  · rw [hsave]
    simp [writeData, hk, hv, hm]
  · rw [hsave]
    simp [writeData, hw]
  · exact run_timers_pending_none _ (by rw [hsave]) js

theorem explicit_save_supersedes_delay_witness :
    sampleState.stopping = false ∧
    ((step (run ([(10, 1), (20, 2), (30, 3)].map fun p => Event.delaySave p.1 p.2)
          sampleState) (Event.save 5)).pending = none ∧
      (step (run ([(10, 1), (20, 2), (30, 3)].map fun p => Event.delaySave p.1 p.2)
          sampleState) (Event.save 5)).disk
        = some ⟨sampleState.key, sampleState.version, sampleState.minor_version, 5⟩ ∧
      (step (run ([(10, 1), (20, 2), (30, 3)].map fun p => Event.delaySave p.1 p.2)
          sampleState) (Event.save 5)).writeLog = sampleState.writeLog ++ [5] ∧
      run ([0, 1, 2].map Event.timer)
          (step (run ([(10, 1), (20, 2), (30, 3)].map fun p => Event.delaySave p.1 p.2)
            sampleState) (Event.save 5))
        = step (run ([(10, 1), (20, 2), (30, 3)].map fun p => Event.delaySave p.1 p.2)
            sampleState) (Event.save 5)) :=
  ⟨rfl, explicit_save_supersedes_delay sampleState rfl [(10, 1), (20, 2), (30, 3)] 5
    [0, 1, 2]⟩

/-- Claim C4: for every data D, `save(D)` while the lifecycle phase is
`stopping` is a silent no-op: the whole store state, and in particular the
persisted resource for the store key, is unchanged. -/
theorem save_noop_while_stopping (st : StoreState Nat) (D : Nat)
    (hstop : st.stopping = true) :
    step st (Event.save D) = st ∧ (step st (Event.save D)).disk = st.disk := by
  constructor <;> simp [step, hstop]

theorem save_noop_while_stopping_witness :
    stoppingState.stopping = true ∧
    (step stoppingState (Event.save 7) = stoppingState ∧
      (step stoppingState (Event.save 7)).disk = stoppingState.disk) :=
  ⟨rfl, save_noop_while_stopping stoppingState 7 rfl⟩

/-- A concrete persisted envelope under the test key at version (2, 1) with
payload 7, used by the witnesses. -/
def envMajor2 : Envelope Nat := ⟨"storage-test", 2, 1, 7⟩

/-- A concrete persisted envelope under the test key at version (1, 1) with
payload 7, used by the witnesses. -/
def envMinor1 : Envelope Nat := ⟨"storage-test", 1, 1, 7⟩

/-- A concrete store state declared at version (1, 1) whose persisted
envelope is at major version 2, used by the witnesses. -/
def major2State : StoreState Nat := { sampleState with disk := some envMajor2 }

/-- A concrete store state declared at version (1, 2) whose persisted
envelope is at version (1, 1), used by the witnesses. -/
def minorState : StoreState Nat :=
  { sampleState with minor_version := 2, disk := some envMinor1 }

/-- Claim C5: for every store whose declared major version differs from the
persisted envelope's major version and which does not implement a migration
override, `load()` fails with the SchemaVersionUnsupported condition,
returned to the caller of `load()` rather than silently swallowed. -/
theorem load_major_mismatch_fails (st : StoreState Nat) (env : Envelope Nat)
    (hc : st.cache = none) (hd : st.disk = some env)
    (hv : env.version ≠ st.version) :
    (loadOnce MigrateHook.unimplemented st).1
      = Except.error StorageError.schemaVersionUnsupported := by
  have hm : runMigration MigrateHook.unimplemented st.version st.minor_version env
      = (.error .schemaVersionUnsupported, 0) := by
    simp [runMigration, hv]
  simp [loadOnce, hc, hd, hm]

theorem load_major_mismatch_fails_witness :
    major2State.cache = none ∧ major2State.disk = some envMajor2 ∧
    envMajor2.version ≠ major2State.version ∧
    (loadOnce MigrateHook.unimplemented major2State).1
      = Except.error StorageError.schemaVersionUnsupported :=
  ⟨rfl, rfl, by decide,
    load_major_mismatch_fails major2State envMajor2 rfl rfl (by decide)⟩

/-- Claim C6: for every store whose declared major version equals the
persisted one but whose declared minor version differs: with no migration
override, `load()` returns the persisted data unchanged and does not fail
(zero hook invocations); with a 3-argument override, the hook is invoked
exactly once with (old_major, old_minor, old_data) and its return value is
what `load()` yields. -/
theorem load_minor_mismatch_migration (st : StoreState Nat) (env : Envelope Nat)
    (f : Nat → Nat → Nat → Nat) (hc : st.cache = none) (hd : st.disk = some env)
    (hmaj : env.version = st.version) (hmin : env.minor_version ≠ st.minor_version) :
    (loadOnce MigrateHook.unimplemented st).1 = Except.ok (some env.data) ∧
    (loadOnce MigrateHook.unimplemented st).2.2 = 0 ∧
    (loadOnce (MigrateHook.modern f) st).1
      = Except.ok (some (f env.version env.minor_version env.data)) ∧
    (loadOnce (MigrateHook.modern f) st).2.2 = 1 := by
  have hm1 : runMigration MigrateHook.unimplemented st.version st.minor_version env
      = (.ok env.data, 0) := by
    simp [runMigration, hmaj, hmin]
  have hm2 : runMigration (MigrateHook.modern f) st.version st.minor_version env
      = (.ok (f env.version env.minor_version env.data), 1) := by
    simp [runMigration, hmaj, hmin]
  refine ⟨?_, ?_, ?_, ?_⟩ <;> simp [loadOnce, hc, hd, hm1, hm2]

theorem load_minor_mismatch_migration_witness :
    minorState.cache = none ∧ minorState.disk = some envMinor1 ∧
    envMinor1.version = minorState.version ∧
    envMinor1.minor_version ≠ minorState.minor_version ∧
    ((loadOnce MigrateHook.unimplemented minorState).1
      = Except.ok (some envMinor1.data) ∧
    (loadOnce MigrateHook.unimplemented minorState).2.2 = 0 ∧
    (loadOnce (MigrateHook.modern fun a b c => a + b + c) minorState).1
      = Except.ok (some (envMinor1.version + envMinor1.minor_version
          + envMinor1.data)) ∧
    (loadOnce (MigrateHook.modern fun a b c => a + b + c) minorState).2.2 = 1) :=
  ⟨rfl, rfl, by decide, by decide,
    load_minor_mismatch_migration minorState envMinor1
      (fun a b c => a + b + c) rfl rfl (by decide) (by decide)⟩

/-- Claim C7: for every data D and store not yet stopping, `save(D)`
persists the envelope under the store's currently declared (major, minor)
version, and a following `load()` returns exactly D — both through the
in-memory cache and, with the cache cleared, through a physical read of the
persisted envelope. -/
theorem save_load_round_trip (st : StoreState Nat) (D : Nat)
    (hook : MigrateHook Nat) (hstop : st.stopping = false) :
    (step st (Event.save D)).disk
      = some ⟨st.key, st.version, st.minor_version, D⟩ ∧
    (loadOnce hook (step st (Event.save D))).1 = Except.ok (some D) ∧
    (loadOnce hook { step st (Event.save D) with cache := none }).1
      = Except.ok (some D) := by
  have hsave : step st (Event.save D) = { writeData st D with pending := none } := by
    simp [step, hstop]
  rw [hsave]
  have hm : runMigration hook st.version st.minor_version
      ⟨st.key, st.version, st.minor_version, D⟩ = (.ok D, 0) := by
    simp [runMigration]
  refine ⟨rfl, rfl, ?_⟩
  simp [loadOnce, writeData, hm]

theorem save_load_round_trip_witness :
    sampleState.stopping = false ∧
    ((step sampleState (Event.save 9)).disk
        = some ⟨sampleState.key, sampleState.version, sampleState.minor_version, 9⟩ ∧
      (loadOnce MigrateHook.unimplemented (step sampleState (Event.save 9))).1
        = Except.ok (some 9) ∧
      (loadOnce MigrateHook.unimplemented
          { step sampleState (Event.save 9) with cache := none }).1
        = Except.ok (some 9)) :=
  ⟨rfl, save_load_round_trip sampleState 9 MigrateHook.unimplemented rfl⟩

/-- Claim C8: for every major-version-only migration, a migration hook with
the legacy 2-argument signature (old_version, old_data) is invoked exactly
once by `load()` and its return value is what `load()` yields, and the
whole `load()` outcome is identical to the canonical 3-argument form that
ignores its minor-version argument. -/
theorem legacy_hook_equivalent (st : StoreState Nat) (env : Envelope Nat)
    (f : Nat → Nat → Nat) (hc : st.cache = none) (hd : st.disk = some env)
    (hv : env.version ≠ st.version) :
    (loadOnce (MigrateHook.legacy f) st).1
      = Except.ok (some (f env.version env.data)) ∧
    (loadOnce (MigrateHook.legacy f) st).2.2 = 1 ∧
    loadOnce (MigrateHook.legacy f) st
      = loadOnce (MigrateHook.modern fun maj _minor d => f maj d) st := by
  have hm1 : runMigration (MigrateHook.legacy f) st.version st.minor_version env
      = (.ok (f env.version env.data), 1) := by
    simp [runMigration, hv]
  have hm2 : runMigration (MigrateHook.modern fun maj _minor d => f maj d)
      st.version st.minor_version env = (.ok (f env.version env.data), 1) := by
    simp [runMigration, hv]
  refine ⟨?_, ?_, ?_⟩ <;> simp [loadOnce, hc, hd, hm1, hm2]

theorem legacy_hook_equivalent_witness :
    major2State.cache = none ∧ major2State.disk = some envMajor2 ∧
    envMajor2.version ≠ major2State.version ∧
    ((loadOnce (MigrateHook.legacy fun v d => v * 100 + d) major2State).1
      = Except.ok (some (envMajor2.version * 100 + envMajor2.data)) ∧
    (loadOnce (MigrateHook.legacy fun v d => v * 100 + d) major2State).2.2 = 1 ∧
    loadOnce (MigrateHook.legacy fun v d => v * 100 + d) major2State
      = loadOnce (MigrateHook.modern fun maj _minor d => maj * 100 + d)
        major2State) :=
  ⟨rfl, rfl, by decide,
    legacy_hook_equivalent major2State envMajor2
      (fun v d => v * 100 + d) rfl rfl (by decide)⟩

/-- Claim C9: for every call of the one-shot legacy import helper: when the
legacy path references no existing resource, it returns the store's current
`load()` value unchanged, with no deletion and no store write; when it
exists, it applies the transform to the loaded content, saves the result
into the store (persisted under the store's declared version), deletes the
legacy resource exactly once, and returns the new data. -/
theorem migrator_one_shot (st : StoreState Nat) (t : Nat → Nat)
    (hook : MigrateHook Nat) (oldData : Nat) (hstop : st.stopping = false) :
    (async_migrator none t hook st).1 = (loadOnce hook st).1 ∧
    (async_migrator none t hook st).2.2 = 0 ∧
    (async_migrator none t hook st).2.1.writeLog = st.writeLog ∧
    (async_migrator (some oldData) t hook st).1 = Except.ok (some (t oldData)) ∧
    (async_migrator (some oldData) t hook st).2.2 = 1 ∧
    (async_migrator (some oldData) t hook st).2.1.disk
      = some ⟨st.key, st.version, st.minor_version, t oldData⟩ ∧
    (async_migrator (some oldData) t hook st).2.1.writeLog
      = st.writeLog ++ [t oldData] := by
  refine ⟨rfl, rfl, loadOnce_writeLog hook st, rfl, rfl, ?_, ?_⟩ <;>
    simp [async_migrator, step, hstop, writeData]

theorem migrator_one_shot_witness :
    sampleState.stopping = false ∧
    ((async_migrator none (fun d => d + 1) MigrateHook.unimplemented sampleState).1
        = (loadOnce MigrateHook.unimplemented sampleState).1 ∧
      (async_migrator none (fun d => d + 1) MigrateHook.unimplemented
          sampleState).2.2 = 0 ∧
      (async_migrator none (fun d => d + 1) MigrateHook.unimplemented
          sampleState).2.1.writeLog = sampleState.writeLog ∧
      (async_migrator (some 4) (fun d => d + 1) MigrateHook.unimplemented
          sampleState).1 = Except.ok (some 5) ∧
      (async_migrator (some 4) (fun d => d + 1) MigrateHook.unimplemented
          sampleState).2.2 = 1 ∧
      (async_migrator (some 4) (fun d => d + 1) MigrateHook.unimplemented
          sampleState).2.1.disk
        = some ⟨sampleState.key, sampleState.version, sampleState.minor_version, 5⟩ ∧
      (async_migrator (some 4) (fun d => d + 1) MigrateHook.unimplemented
          sampleState).2.1.writeLog = sampleState.writeLog ++ [5]) :=
  ⟨rfl, migrator_one_shot sampleState (fun d => d + 1) MigrateHook.unimplemented 4 rfl⟩

/-- The `period` argument of the fossil_energy_consumption websocket
command: one of 5minute, hour, day, month
(`homeassistant/components/energy/websocket_api.py`, command schema). -/
inductive Period where
  | fiveMinute
  | hour
  | day
  | month
deriving DecidableEq

/-- A statistics row as returned by the external statistics recorder: a
start time (modelled as an abstract timestamp), an optional sum and a mean
(`websocket_api.py`, the rows consumed by `_combine_sum_statistics` and by
the co2 indexing comprehension). -/
structure StatRow where
  start : Nat
  sum : Option ℚ
  mean : ℚ
deriving DecidableEq

/-- Python dict assignment on an insertion-ordered association list:
update the value in place when the key is present, append otherwise. -/
def setAssoc {κ : Type} [DecidableEq κ] (l : List (κ × ℚ)) (k : κ) (v : ℚ) :
    List (κ × ℚ) :=
  match l with
  | [] => [(k, v)]
  | (a, b) :: rest => if a = k then (a, v) :: rest else (a, b) :: setAssoc rest k v

/-- Python `defaultdict(float)` accumulation on an insertion-ordered
association list: add to the value in place when the key is present, append
otherwise. -/
def addAssoc {κ : Type} [DecidableEq κ] (l : List (κ × ℚ)) (k : κ) (v : ℚ) :
    List (κ × ℚ) :=
  match l with
  | [] => [(k, v)]
  | (a, b) :: rest => if a = k then (a, b + v) :: rest else (a, b) :: addAssoc rest k v

/-- Python `dict.get(key, default)` on an association list. -/
def getAssoc {κ : Type} [DecidableEq κ] (l : List (κ × ℚ)) (k : κ) (dflt : ℚ) : ℚ :=
  match l with
  | [] => dflt
  | (a, b) :: rest => if a = k then b else getAssoc rest k dflt

/-- A Python dict comprehension over key/value pairs: later occurrences of
a key overwrite earlier ones, insertion order kept. -/
def dictOfPairs {κ : Type} [DecidableEq κ] (ps : List (κ × ℚ)) : List (κ × ℚ) :=
  ps.foldl (fun acc p => setAssoc acc p.1 p.2) []

/-- `_combine_sum_statistics` from `ws_get_fossil_energy_consumption`
(`websocket_api.py` lines 279-291): combine multiple statistics into a dict
indexed by start time, skipping rows whose sum is missing. -/
def combineSumStatistics (stats : List (String × List StatRow)) : List (Nat × ℚ) :=
  stats.foldl
    (fun acc entry =>
      entry.2.foldl
        (fun acc2 row =>
          match row.sum with
          | none => acc2
          | some s => addAssoc acc2 row.start s)
        acc)
    []

/-- Python `dict.get(key, \x7b\x7d)` for the dict of statistics returned by
the recorder: the rows stored under a statistic id, or the empty list. -/
def lookupStats (stats : List (String × List StatRow)) (id : String) :
    List StatRow :=
  match stats with
  | [] => []
  | (a, rows) :: rest => if a = id then rows else lookupStats rest id

/-- The co2 indexing comprehension of `ws_get_fossil_energy_consumption`
(`websocket_api.py` lines 294-297): a dict from row start time to row
mean. -/
def indexedCo2 (rows : List StatRow) : List (Nat × ℚ) :=
  rows.foldl (fun acc row => setAssoc acc row.start row.mean) []

/-- A message sent on the websocket connection by the handler: an error
message, a result dict keyed by isoformat strings (the hour branch), or a
result dict keyed by start timestamps (the day and month branches). -/
inductive SentMsg where
  | errorMsg (code : String) (text : String)
  | resultStr (payload : List (String × ℚ))
  | resultNat (payload : List (Nat × ℚ))
deriving DecidableEq

/-- The fields of an energy/fossil_energy_consumption websocket request
(`websocket_api.py` lines 227-235). -/
structure FossilMsg where
  start_time : String
  end_time : String
  energy_statistic_ids : List String
  co2_statistic_id : String
  period : Period

/-- The fossil-energy computation of `ws_get_fossil_energy_consumption`
(`websocket_api.py` lines 257-303): fetch the energy and CO2 statistics,
combine the energy sums indexed by start time, index the CO2 means by start
time, and scale each combined sum by the CO2 mean for its start time,
assuming 100 percent fossil when the mean is missing. -/
def fossilEnergy
    (statistics_during_period : Nat → Nat → List String → List (String × List StatRow))
    (start_time end_time : Nat) (energy_statistic_ids : List String)
    (co2_statistic_id : String) : List (Nat × ℚ) :=
  let energy_statistics :=
    statistics_during_period start_time end_time energy_statistic_ids
  let co2_statistics :=
    statistics_during_period start_time end_time [co2_statistic_id]
  let merged_energy_statistics := combineSumStatistics energy_statistics
  let indexed_co2_statistics :=
    indexedCo2 (lookupStats co2_statistics co2_statistic_id)
  merged_energy_statistics.map fun p =>
    (p.1, p.2 * getAssoc indexed_co2_statistics p.1 100 / 100)

/-- `ws_get_fossil_energy_consumption` (`websocket_api.py` lines 238-327),
embedded over its external collaborators: datetime parsing and UTC
conversion, the recorder's `statistics_during_period` (its `"hour"` and
`True` arguments are fixed in the source and folded in), the recorder's
per-day and per-month reducers applied to the `"combined"` entry, and
datetime `isoformat`.  Returns the list of messages sent on the
connection, in order. -/
def ws_get_fossil_energy_consumption
    (parse_datetime : String → Option Nat) (as_utc : Nat → Nat)
    (statistics_during_period : Nat → Nat → List String → List (String × List StatRow))
    (reduce_statistics_per_day reduce_statistics_per_month :
      List (Nat × ℚ) → List (Nat × ℚ))
    (isoformat : Nat → String) (msg : FossilMsg) : List SentMsg :=
  match parse_datetime msg.start_time with
  | none => [SentMsg.errorMsg "invalid_start_time" "Invalid start_time"]
  | some s =>
      let start_time := as_utc s
      match parse_datetime msg.end_time with
      | none => [SentMsg.errorMsg "invalid_end_time" "Invalid end_time"]
      | some e =>
          let end_time := as_utc e
          let fossil_energy :=
            fossilEnergy statistics_during_period start_time end_time
              msg.energy_statistic_ids msg.co2_statistic_id
          (if msg.period = Period.hour then
            [SentMsg.resultStr (dictOfPairs (fossil_energy.map fun p =>
              (isoformat p.1, p.2)))]
          else []) ++
          (if msg.period = Period.day then
            [SentMsg.resultNat (dictOfPairs (reduce_statistics_per_day fossil_energy))]
          else []) ++
          [SentMsg.resultNat (dictOfPairs (reduce_statistics_per_month fossil_energy))]

/-- Claim C10: for every fossil_energy_consumption request whose start_time
and end_time both parse as datetimes, the handler sends the monthly-reduced
statistics as a result message regardless of the requested period (always
the last message sent); when the requested period is hour or day, the
per-hour or per-day result is sent first and the monthly result as well, so
such a request receives exactly two result messages; for the other periods
exactly the monthly result message is sent. -/
theorem fossil_consumption_always_sends_month
    (parse_datetime : String → Option Nat) (as_utc : Nat → Nat)
    (statistics_during_period : Nat → Nat → List String → List (String × List StatRow))
    (reduce_statistics_per_day reduce_statistics_per_month :
      List (Nat × ℚ) → List (Nat × ℚ))
    (isoformat : Nat → String) (msg : FossilMsg) (s e : Nat)
    (hs : parse_datetime msg.start_time = some s)
    (he : parse_datetime msg.end_time = some e) :
    ∃ monthly : List (Nat × ℚ),
      (ws_get_fossil_energy_consumption parse_datetime as_utc
          statistics_during_period reduce_statistics_per_day
          reduce_statistics_per_month isoformat msg).getLast?
        = some (SentMsg.resultNat monthly) ∧
      (msg.period = Period.hour → ∃ hourly : List (String × ℚ),
        ws_get_fossil_energy_consumption parse_datetime as_utc
            statistics_during_period reduce_statistics_per_day
            reduce_statistics_per_month isoformat msg
          = [SentMsg.resultStr hourly, SentMsg.resultNat monthly]) ∧
      (msg.period = Period.day → ∃ daily : List (Nat × ℚ),
        ws_get_fossil_energy_consumption parse_datetime as_utc
            statistics_during_period reduce_statistics_per_day
            reduce_statistics_per_month isoformat msg
          = [SentMsg.resultNat daily, SentMsg.resultNat monthly]) ∧
      ((msg.period = Period.fiveMinute ∨ msg.period = Period.month) →
        ws_get_fossil_energy_consumption parse_datetime as_utc
            statistics_during_period reduce_statistics_per_day
            reduce_statistics_per_month isoformat msg
          = [SentMsg.resultNat monthly]) := by
  refine ⟨dictOfPairs (reduce_statistics_per_month
    (fossilEnergy statistics_during_period (as_utc s) (as_utc e)
      msg.energy_statistic_ids msg.co2_statistic_id)), ?_, ?_, ?_, ?_⟩
  · cases hp : msg.period <;>
      simp [ws_get_fossil_energy_consumption, hs, he, hp]
  · intro hp
    exact ⟨dictOfPairs ((fossilEnergy statistics_during_period (as_utc s) (as_utc e)
        msg.energy_statistic_ids msg.co2_statistic_id).map fun p =>
          (isoformat p.1, p.2)),
      by simp [ws_get_fossil_energy_consumption, hs, he, hp]⟩
  · intro hp
    exact ⟨dictOfPairs (reduce_statistics_per_day
        (fossilEnergy statistics_during_period (as_utc s) (as_utc e)
          msg.energy_statistic_ids msg.co2_statistic_id)),
      by simp [ws_get_fossil_energy_consumption, hs, he, hp]⟩
  · rintro (hp | hp) <;>
      simp [ws_get_fossil_energy_consumption, hs, he, hp]

/-- Concrete collaborators for the fossil-energy witness: a parser that
always succeeds at timestamp 0, an empty statistics recorder, identity
reducers and a constant formatter, with an hour-period request. -/
def sampleParse : String → Option Nat := fun _ => some 0

/-- A statistics recorder returning no statistics, for the witness. -/
def sampleStats : Nat → Nat → List String → List (String × List StatRow) :=
  fun _ _ _ => []

/-- An identity statistics reducer, for the witness. -/
def sampleReduce : List (Nat × ℚ) → List (Nat × ℚ) := fun l => l

/-- A constant datetime formatter, for the witness. -/
def sampleIso : Nat → String := fun _ => "t"

/-- A concrete hour-period fossil_energy_consumption request, for the
witness. -/
def sampleFossilMsg : FossilMsg :=
  { start_time := "2021-01-01", end_time := "2021-01-02",
    energy_statistic_ids := ["e1"], co2_statistic_id := "c1",
    period := Period.hour }

theorem fossil_consumption_always_sends_month_witness :
    sampleParse sampleFossilMsg.start_time = some 0 ∧
    sampleParse sampleFossilMsg.end_time = some 0 ∧
    ∃ monthly : List (Nat × ℚ),
      (ws_get_fossil_energy_consumption sampleParse (fun n => n) sampleStats
          sampleReduce sampleReduce sampleIso sampleFossilMsg).getLast?
        = some (SentMsg.resultNat monthly) ∧
      (sampleFossilMsg.period = Period.hour → ∃ hourly : List (String × ℚ),
        ws_get_fossil_energy_consumption sampleParse (fun n => n) sampleStats
            sampleReduce sampleReduce sampleIso sampleFossilMsg
          = [SentMsg.resultStr hourly, SentMsg.resultNat monthly]) ∧
      (sampleFossilMsg.period = Period.day → ∃ daily : List (Nat × ℚ),
        ws_get_fossil_energy_consumption sampleParse (fun n => n) sampleStats
            sampleReduce sampleReduce sampleIso sampleFossilMsg
          = [SentMsg.resultNat daily, SentMsg.resultNat monthly]) ∧
      ((sampleFossilMsg.period = Period.fiveMinute ∨
          sampleFossilMsg.period = Period.month) →
        ws_get_fossil_energy_consumption sampleParse (fun n => n) sampleStats
            sampleReduce sampleReduce sampleIso sampleFossilMsg
          = [SentMsg.resultNat monthly]) :=
  ⟨rfl, rfl,
    fossil_consumption_always_sends_month sampleParse (fun n => n) sampleStats
      sampleReduce sampleReduce sampleIso sampleFossilMsg 0 0 rfl rfl⟩
